import Mathlib

/-!
Verification of the getStocksData core: the `SingleStockMomentumVolBreakoutStrategy`
signal engine (`fn_2.py`) and the `BacktestEngine` portfolio ledger (`testback.py`),
shallowly embedded over `ℚ`.  Pandas NaN cells (rows before a rolling window is
full) are embedded as `Option ℚ` with `none`; comparisons against `none` are
`false`, matching NaN comparison semantics.  Division follows the total `ℚ`
convention `x / 0 = 0`.
-/

namespace GetStocksData

/-- One OHLC bar (a row of the input dataframe).  `op` is the `open` column. -/
structure Bar where
  op : ℚ
  high : ℚ
  low : ℚ
  close : ℚ
deriving DecidableEq

/-- Strategy parameters, mirroring `SingleStockMomentumVolBreakoutStrategy.__init__`
(only the fields the embedded computations read). -/
structure StratParams where
  fastMaW : ℕ
  slowMaW : ℕ
  entryBreakW : ℕ
  atrW : ℕ
  atrMultipleStop : ℚ
  volMinPct : ℚ
  volMaxPct : ℚ
  volLookback : ℕ
  volExpandMultipleForAdd : ℚ
  exitBreakW : ℕ
  takeProfitMultiple : ℚ
  trendStrengthThreshold : ℚ
deriving DecidableEq

/-- The constructor defaults of `fn_2.py` (including `take_profit_multiple = 2.0`
and `trend_strength_threshold = 0.02` set in `__init__`). -/
def defaultParams : StratParams :=
  { fastMaW := 20, slowMaW := 60, entryBreakW := 10, atrW := 14,
    atrMultipleStop := 3, volMinPct := 7/10, volMaxPct := 2, volLookback := 60,
    volExpandMultipleForAdd := 11/10, exitBreakW := 10,
    takeProfitMultiple := 2, trendStrengthThreshold := 1/50 }

/-- Row access on the bar list (out-of-range reads return a zero bar; every use
in the development is guarded to in-range indices). -/
def getBar (bars : List Bar) (i : ℕ) : Bar := bars.getD i ⟨0, 0, 0, 0⟩

def closeAt (bars : List Bar) (i : ℕ) : ℚ := (getBar bars i).close

def highAt (bars : List Bar) (i : ℕ) : ℚ := (getBar bars i).high

def lowAt (bars : List Bar) (i : ℕ) : ℚ := (getBar bars i).low

/-- True range row of `_compute_atr`: `max(high-low, |high-prev_close|, |low-prev_close|)`;
on the first row the two `prev_close` legs are NaN and the row-wise max skips them. -/
def trueRange (bars : List Bar) : ℕ → ℚ
  | 0 => highAt bars 0 - lowAt bars 0
  | i + 1 =>
      max (highAt bars (i + 1) - lowAt bars (i + 1))
        (max |highAt bars (i + 1) - closeAt bars i| |lowAt bars (i + 1) - closeAt bars i|)

/-- Smoothing factor of `ewm(span=window, adjust=False)`. -/
def ewmAlpha (w : ℕ) : ℚ := 2 / (w + 1)

/-- `tr.ewm(span=window, adjust=False).mean()`: `y₀ = x₀`,
`yᵢ = (1-α)·yᵢ₋₁ + α·xᵢ` with `α = 2/(window+1)`. -/
def atr (p : StratParams) (bars : List Bar) : ℕ → ℚ
  | 0 => trueRange bars 0
  | i + 1 => (1 - ewmAlpha p.atrW) * atr p bars i + ewmAlpha p.atrW * trueRange bars (i + 1)

/-- The trailing window `[i+1-w, i]` of a series, as a list (meaningful when
`1 ≤ w ≤ i+1`, which every caller checks first). -/
def windowVals (f : ℕ → ℚ) (w i : ℕ) : List ℚ :=
  (List.range w).map fun k => f (i + 1 - w + k)

/-- `rolling(w).mean()`: NaN (`none`) until the window is full. -/
def rollingMean (f : ℕ → ℚ) (w i : ℕ) : Option ℚ :=
  if 1 ≤ w ∧ w ≤ i + 1 then some ((windowVals f w i).sum / (w : ℚ)) else none

/-- `rolling(w).max()`. -/
def rollingMax (f : ℕ → ℚ) (w i : ℕ) : Option ℚ :=
  if 1 ≤ w ∧ w ≤ i + 1 then some ((windowVals f w i).foldl max (f (i + 1 - w))) else none

/-- `rolling(w).min()`. -/
def rollingMin (f : ℕ → ℚ) (w i : ℕ) : Option ℚ :=
  if 1 ≤ w ∧ w ≤ i + 1 then some ((windowVals f w i).foldl min (f (i + 1 - w))) else none

/-- Median of a list as pandas computes it: sort, take the middle element (odd
length) or the mean of the two middle elements (even length). -/
def medianQ (l : List ℚ) : ℚ :=
  let s := List.insertionSort (· ≤ ·) l
  if l.length = 0 then 0
  else if l.length % 2 = 1 then s.getD (l.length / 2) 0
  else (s.getD (l.length / 2 - 1) 0 + s.getD (l.length / 2) 0) / 2

/-- `rolling(w).median()`. -/
def rollingMedian (f : ℕ → ℚ) (w i : ℕ) : Option ℚ :=
  if 1 ≤ w ∧ w ≤ i + 1 then some (medianQ (windowVals f w i)) else none

/-- `df['atr_pct'] = df['atr'] / df['close']`. -/
def atrPct (p : StratParams) (bars : List Bar) (i : ℕ) : ℚ :=
  atr p bars i / closeAt bars i

/-- `df['atr_pct_median'] = df['atr_pct'].rolling(vol_lookback_for_filter).median()`. -/
def atrPctMedian (p : StratParams) (bars : List Bar) (i : ℕ) : Option ℚ :=
  rollingMedian (atrPct p bars) p.volLookback i

/-- `df['atr_filter_ratio'] = df['atr_pct'] / df['atr_pct_median']`. -/
def atrFilterRatio (p : StratParams) (bars : List Bar) (i : ℕ) : Option ℚ :=
  (atrPctMedian p bars i).map fun m => atrPct p bars i / m

inductive VolRegime where
  | low
  | normal
  | high
deriving DecidableEq

/-- `volatility_regime`: initialised `'normal'`, then the `'low'` assignment
(`ratio < vol_min_pct`), then the `'high'` assignment (`ratio > vol_max_pct`,
applied last so it wins on overlap).  A NaN ratio satisfies neither comparison. -/
def volRegime (p : StratParams) (bars : List Bar) (i : ℕ) : VolRegime :=
  match atrFilterRatio p bars i with
  | none => VolRegime.normal
  | some r =>
      if p.volMaxPct < r then VolRegime.high
      else if r < p.volMinPct then VolRegime.low
      else VolRegime.normal

/-- `df['fast_ma'] = df['close'].rolling(fast_ma_window).mean()`. -/
def fastMa (p : StratParams) (bars : List Bar) (i : ℕ) : Option ℚ :=
  rollingMean (closeAt bars) p.fastMaW i

/-- `df['slow_ma'] = df['close'].rolling(slow_ma_window).mean()`. -/
def slowMa (p : StratParams) (bars : List Bar) (i : ℕ) : Option ℚ :=
  rollingMean (closeAt bars) p.slowMaW i

/-- `df['donchian_high'] = df['high'].rolling(entry_breakout_window).max()`. -/
def donchianHigh (p : StratParams) (bars : List Bar) (i : ℕ) : Option ℚ :=
  rollingMax (highAt bars) p.entryBreakW i

/-- `df['donchian_low'] = df['low'].rolling(exit_break_window).min()`. -/
def donchianLow (p : StratParams) (bars : List Bar) (i : ℕ) : Option ℚ :=
  rollingMin (lowAt bars) p.exitBreakW i

/-- `df['trend_strength'] = (df['fast_ma'] - df['slow_ma']) / df['slow_ma']`
(NaN as soon as either moving average is NaN). -/
def trendStrength (p : StratParams) (bars : List Bar) (i : ℕ) : Option ℚ :=
  match fastMa p bars i, slowMa p bars i with
  | some f, some s => some ((f - s) / s)
  | _, _ => none

/-- `df['dynamic_stop_loss'] = df['close'] - atr_multiple_stop * df['atr']`. -/
def dynamicStopLoss (p : StratParams) (bars : List Bar) (i : ℕ) : ℚ :=
  closeAt bars i - p.atrMultipleStop * atr p bars i

/-- `df['take_profit_price'] = df['close'] + take_profit_multiple * atr_multiple_stop * df['atr']`. -/
def takeProfitPrice (p : StratParams) (bars : List Bar) (i : ℕ) : ℚ :=
  closeAt bars i + p.takeProfitMultiple * p.atrMultipleStop * atr p bars i

/-- `df['risk_reward_ratio'] = (take_profit_price - close) / (close - dynamic_stop_loss)`. -/
def riskRewardRatio (p : StratParams) (bars : List Bar) (i : ℕ) : ℚ :=
  (takeProfitPrice p bars i - closeAt bars i) / (closeAt bars i - dynamicStopLoss p bars i)

/-- `ma_condition = row['fast_ma'] > row['slow_ma']` (false on NaN). -/
def maCondition (p : StratParams) (bars : List Bar) (i : ℕ) : Bool :=
  match fastMa p bars i, slowMa p bars i with
  | some f, some s => decide (s < f)
  | _, _ => false

/-- `trend_condition = row['close'] > row['fast_ma']`. -/
def trendCondition (p : StratParams) (bars : List Bar) (i : ℕ) : Bool :=
  match fastMa p bars i with
  | some f => decide (f < closeAt bars i)
  | none => false

/-- `vol_condition = vol_min_pct <= row['atr_filter_ratio'] <= vol_max_pct`. -/
def volCondition (p : StratParams) (bars : List Bar) (i : ℕ) : Bool :=
  match atrFilterRatio p bars i with
  | some r => decide (p.volMinPct ≤ r ∧ r ≤ p.volMaxPct)
  | none => false

/-- `risk_reward_ok = row['risk_reward_ratio'] > 1.5`. -/
def riskRewardOk (p : StratParams) (bars : List Bar) (i : ℕ) : Bool :=
  decide ((3 : ℚ)/2 < riskRewardRatio p bars i)

/-- `below_stop = row['close'] < row['dynamic_stop_loss']`. -/
def belowStop (p : StratParams) (bars : List Bar) (i : ℕ) : Bool :=
  decide (closeAt bars i < dynamicStopLoss p bars i)

/-- `break_low = row['close'] < row['donchian_low']`. -/
def breakLow (p : StratParams) (bars : List Bar) (i : ℕ) : Bool :=
  match donchianLow p bars i with
  | some d => decide (closeAt bars i < d)
  | none => false

/-- `above_take_profit = row['close'] > row['take_profit_price']`. -/
def aboveTakeProfit (p : StratParams) (bars : List Bar) (i : ℕ) : Bool :=
  decide (takeProfitPrice p bars i < closeAt bars i)

/-- `trend_reversal = row['trend_strength'] < -trend_strength_threshold`. -/
def trendReversal (p : StratParams) (bars : List Bar) (i : ℕ) : Bool :=
  match trendStrength p bars i with
  | some t => decide (t < -p.trendStrengthThreshold)
  | none => false

/-- The BUY branch guard of `generate_signals`. -/
def buyCondition (p : StratParams) (bars : List Bar) (i : ℕ) : Bool :=
  maCondition p bars i && trendCondition p bars i && volCondition p bars i
    && riskRewardOk p bars i

/-- The SELL branch guard of `generate_signals`. -/
def sellCondition (p : StratParams) (bars : List Bar) (i : ℕ) : Bool :=
  belowStop p bars i || breakLow p bars i || aboveTakeProfit p bars i
    || trendReversal p bars i

/-- The ADD branch guard: `trend_strength > threshold * 1.5 and
atr_filter_ratio > vol_expand_multiple_for_add`. -/
def addCondition (p : StratParams) (bars : List Bar) (i : ℕ) : Bool :=
  (match trendStrength p bars i with
   | some t => decide (p.trendStrengthThreshold * (3/2) < t)
   | none => false)
  && (match atrFilterRatio p bars i with
      | some r => decide (p.volExpandMultipleForAdd < r)
      | none => false)

inductive Action where
  | buy
  | sell
  | add
  | hold
deriving DecidableEq

/-- The `signal_reason` tags of `generate_signals` (Chinese strings in the
source), plus `blank` for the initialised empty string. -/
inductive Reason where
  | buyEntry
  | stopLossHit
  | supportBreak
  | takeProfitHit
  | trendReversalTag
  | addEntry
  | blank
deriving DecidableEq

/-- `max(slow_ma_window, vol_lookback_for_filter)`: rows with a smaller index
are skipped by the signal loop. -/
def minLookback (p : StratParams) : ℕ := max p.slowMaW p.volLookback

/-- The `signal` column after `generate_signals`: initialised `'HOLD'`; rows at
index `≥ minLookback` run the `if buy / elif sell / elif add` chain. -/
def signalAt (p : StratParams) (bars : List Bar) (i : ℕ) : Action :=
  if i < minLookback p then Action.hold
  else if buyCondition p bars i then Action.buy
  else if sellCondition p bars i then Action.sell
  else if addCondition p bars i then Action.add
  else Action.hold

/-- The `signal_reason` column after `generate_signals`; within the SELL branch
the tag is chosen by the first true of `below_stop`, `break_low`,
`above_take_profit`, else trend reversal. -/
def reasonAt (p : StratParams) (bars : List Bar) (i : ℕ) : Reason :=
  if i < minLookback p then Reason.blank
  else if buyCondition p bars i then Reason.buyEntry
  else if sellCondition p bars i then
    (if belowStop p bars i then Reason.stopLossHit
     else if breakLow p bars i then Reason.supportBreak
     else if aboveTakeProfit p bars i then Reason.takeProfitHit
     else Reason.trendReversalTag)
  else if addCondition p bars i then Reason.addEntry
  else Reason.blank

/-! ## The backtest ledger (`BacktestEngine.backtest_strategy`, `testback.py`) -/

/-- `int(x)` of Python on a number: truncation toward zero. -/
def pyInt (q : ℚ) : ℤ := if 0 ≤ q then ⌊q⌋ else ⌈q⌉

/-- One entry of the `signals` list built at the top of `backtest_strategy`
(dates are abstracted to naturals; the builder sets `strength = 1.0`). -/
structure Signal where
  date : ℕ
  action : Action
  price : ℚ
  reason : Reason
  strength : ℚ
deriving DecidableEq

def defaultSignal : Signal := ⟨0, Action.hold, 0, Reason.blank, 0⟩

/-- One entry of the `self.positions` dict: the key (`posDate`) and the stored
shares/price (the stored `date` field always equals the key). -/
structure Lot where
  posDate : ℕ
  shares : ℤ
  price : ℚ
deriving DecidableEq

/-- One entry of `self.trades`.  `profit` is `none` for BUY records (the key is
absent there; reads use `t.get('profit', 0)`). -/
structure Trade where
  date : ℕ
  action : Action
  price : ℚ
  shares : ℤ
  profit : Option ℚ
  reason : Reason
  cashAfter : ℚ
deriving DecidableEq

/-- One entry of `self.portfolio_value`. -/
structure Snapshot where
  date : ℕ
  value : ℚ
  cash : ℚ
  positionsCount : ℕ
deriving DecidableEq

/-- The mutable engine state reset at the top of `backtest_strategy`. -/
structure LedgerState where
  cash : ℚ
  positions : List Lot
  trades : List Trade
  portfolio : List Snapshot
deriving DecidableEq

/-- `self.positions[signal['date']] = {...}`: Python dict assignment — replace
in place when the key exists, else append (insertion order preserved). -/
def upsertLot (lots : List Lot) (lot : Lot) : List Lot :=
  if lots.any fun l => decide (l.posDate = lot.posDate) then
    lots.map fun l => if l.posDate = lot.posDate then lot else l
  else lots ++ [lot]

/-- `position_size = min(self.cash * 0.1 * signal['strength'], self.cash)`. -/
def positionSize (st : LedgerState) (sig : Signal) : ℚ :=
  min (st.cash * (1/10) * sig.strength) st.cash

/-- `shares = int(position_size / signal['price'])`. -/
def buyShares (st : LedgerState) (sig : Signal) : ℤ :=
  pyInt (positionSize st sig / sig.price)

/-- The BUY branch body: executed only when `shares > 0`; stores the lot under
the signal's date, decreases cash by `shares * price` and logs a BUY trade. -/
def applyBuy (st : LedgerState) (sig : Signal) : LedgerState :=
  if 0 < buyShares st sig then
    { st with
      cash := st.cash - (buyShares st sig : ℚ) * sig.price,
      positions := upsertLot st.positions ⟨sig.date, buyShares st sig, sig.price⟩,
      trades := st.trades ++ [⟨sig.date, Action.buy, sig.price, buyShares st sig, none,
        sig.reason, st.cash - (buyShares st sig : ℚ) * sig.price⟩] }
  else st

/-- One iteration of the SELL loop body over a snapshot of the positions dict:
for a qualifying lot (`pos_date <= signal['date']`) add the proceeds to cash and
log a SELL trade recording the realized profit and the cash after. -/
def sellFold (date : ℕ) (price : ℚ) (reason : Reason) (acc : ℚ × List Trade)
    (lot : Lot) : ℚ × List Trade :=
  if lot.posDate ≤ date then
    (acc.1 + (lot.shares : ℚ) * price,
     acc.2 ++ [⟨date, Action.sell, price, lot.shares,
       some ((price - lot.price) * (lot.shares : ℚ)), reason,
       acc.1 + (lot.shares : ℚ) * price⟩])
  else acc

/-- The SELL branch: close every lot with `pos_date <= signal['date']`
(deleting it from the dict), in insertion order. -/
def applySell (st : LedgerState) (date : ℕ) (price : ℚ) (reason : Reason) : LedgerState :=
  { st with
    cash := (st.positions.foldl (sellFold date price reason) (st.cash, st.trades)).1,
    trades := (st.positions.foldl (sellFold date price reason) (st.cash, st.trades)).2,
    positions := st.positions.filter fun l => decide (¬ l.posDate ≤ date) }

/-- Mark-to-market of a list of lots at one price. -/
def lotsValue (lots : List Lot) (price : ℚ) : ℚ :=
  lots.foldl (fun a l => a + (l.shares : ℚ) * price) 0

/-- The trade part of one loop iteration: the BUY branch (guarded by
`cash > 0`), else the SELL branch (guarded by a non-empty positions dict),
else nothing. -/
def tradePhase (st : LedgerState) (sig : Signal) : LedgerState :=
  if sig.action = Action.buy ∧ 0 < st.cash then applyBuy st sig
  else if sig.action = Action.sell ∧ st.positions ≠ [] then
    applySell st sig.date sig.price sig.reason
  else st

/-- The snapshot appended at the end of one loop iteration: its value marks
open lots with `pos_date <= signal['date']` at the signal's price. -/
def snapshotOf (st : LedgerState) (sig : Signal) : Snapshot :=
  ⟨sig.date,
   st.cash + lotsValue (st.positions.filter fun l => decide (l.posDate ≤ sig.date)) sig.price,
   st.cash, st.positions.length⟩

/-- One iteration of the `for signal in signals` loop: trade, then
unconditionally append a portfolio snapshot. -/
def stepSignal (st : LedgerState) (sig : Signal) : LedgerState :=
  { tradePhase st sig with
    portfolio := (tradePhase st sig).portfolio ++ [snapshotOf (tradePhase st sig) sig] }

def runSignals (st : LedgerState) (sigs : List Signal) : LedgerState :=
  sigs.foldl stepSignal st

/-- The state reset at the top of `backtest_strategy`. -/
def initState (cash0 : ℚ) : LedgerState := ⟨cash0, [], [], []⟩

/-- The whole signal loop of `backtest_strategy` from a fresh state. -/
def runBacktest (cash0 : ℚ) (sigs : List Signal) : LedgerState :=
  runSignals (initState cash0) sigs

/-- One row of the `generate_signals` dataframe as the signal builder reads it. -/
structure SignalRow where
  date : ℕ
  signal : Action
  close : ℚ
  reason : Reason
deriving DecidableEq

/-- The signal-list builder: keep non-HOLD rows, take the close as price and a
fixed strength of `1.0`. -/
def extractSignals (rows : List SignalRow) : List Signal :=
  (rows.filter fun r => decide (r.signal ≠ Action.hold)).map
    fun r => ⟨r.date, r.signal, r.close, r.reason, 1⟩

/-! ## Performance statistics (`BacktestEngine.calculate_performance`) -/

def isSellTrade (t : Trade) : Bool := decide (t.action = Action.sell)

/-- `t['action'] == 'SELL'` and `t.get('profit', 0) > 0`. -/
def isWinningSell (t : Trade) : Bool :=
  isSellTrade t && decide (0 < t.profit.getD 0)

/-- `win_rate = len(profitable_trades) / len(sell_trades) * 100 if sell_trades else 0`,
with `sell_trades` the filter on `action == 'SELL'` and `profitable_trades` its
sub-filter on `t.get('profit', 0) > 0`. -/
def winRateOfTrades (trades : List Trade) : ℚ :=
  if (trades.filter isSellTrade).isEmpty then 0
  else ((((trades.filter isSellTrade).filter fun t => decide (0 < t.profit.getD 0)).length : ℚ)
    / ((trades.filter isSellTrade).length : ℚ)) * 100

/-- The `win_rate` field of `calculate_performance`, which returns an empty
dict (here `none`) when no portfolio snapshot was recorded. -/
def performanceWinRate (st : LedgerState) : Option ℚ :=
  if st.portfolio.isEmpty then none else some (winRateOfTrades st.trades)

/-! ## Basic field lemmas about the ledger step -/

theorem applyBuy_portfolio (st : LedgerState) (sig : Signal) :
    (applyBuy st sig).portfolio = st.portfolio := by
  rw [applyBuy]; split <;> rfl

theorem applySell_portfolio (st : LedgerState) (d : ℕ) (pr : ℚ) (r : Reason) :
    (applySell st d pr r).portfolio = st.portfolio := rfl

theorem tradePhase_portfolio (st : LedgerState) (sig : Signal) :
    (tradePhase st sig).portfolio = st.portfolio := by
  rw [tradePhase]
  split
  · exact applyBuy_portfolio st sig
  · split
    · exact applySell_portfolio st sig.date sig.price sig.reason
    · rfl

theorem stepSignal_cash (st : LedgerState) (sig : Signal) :
    (stepSignal st sig).cash = (tradePhase st sig).cash := rfl

theorem stepSignal_positions (st : LedgerState) (sig : Signal) :
    (stepSignal st sig).positions = (tradePhase st sig).positions := rfl

theorem stepSignal_trades (st : LedgerState) (sig : Signal) :
    (stepSignal st sig).trades = (tradePhase st sig).trades := rfl

theorem stepSignal_portfolio (st : LedgerState) (sig : Signal) :
    (stepSignal st sig).portfolio = st.portfolio ++ [snapshotOf (tradePhase st sig) sig] := by
  have : (stepSignal st sig).portfolio
      = (tradePhase st sig).portfolio ++ [snapshotOf (tradePhase st sig) sig] := rfl
  rw [this, tradePhase_portfolio]

theorem stepSignal_portfolio_length (st : LedgerState) (sig : Signal) :
    (stepSignal st sig).portfolio.length = st.portfolio.length + 1 := by
  rw [stepSignal_portfolio]
  simp

theorem runSignals_cons (st : LedgerState) (s : Signal) (ss : List Signal) :
    runSignals st (s :: ss) = runSignals (stepSignal st s) ss := by
  rw [runSignals, runSignals, List.foldl_cons]

theorem runSignals_portfolio_length (sigs : List Signal) :
    ∀ st : LedgerState,
      (runSignals st sigs).portfolio.length = st.portfolio.length + sigs.length := by
  induction sigs with
  | nil => intro st; rw [runSignals, List.foldl_nil]; simp
  | cons s ss ih =>
      intro st
      rw [runSignals_cons, ih (stepSignal st s), stepSignal_portfolio_length]
      simp [Nat.add_assoc, Nat.add_comm 1 ss.length]

/-! ## Concrete signals used in scenario theorems -/

def sigBuyA : Signal := ⟨0, Action.buy, 10, Reason.buyEntry, 1⟩

def sigSellB : Signal := ⟨1, Action.sell, 20, Reason.trendReversalTag, 1⟩

def sigAddC : Signal := ⟨0, Action.add, 10, Reason.addEntry, 1⟩

def sigAddD : Signal := ⟨5, Action.add, 10, Reason.addEntry, 1⟩

/-- C1.  The spec scenario claims that a BUY of strength 1.0 at price 10.00
from cash 1,000,000 leaves a cash balance of 0.00 after the trade; the engine
actually leaves 900,000 (it spends only the 10%-of-cash position value). -/
theorem c1_cash_after_counterexample :
    (runBacktest 1000000 [sigBuyA]).cash = 900000 ∧ ¬ ((900000 : ℚ) = 0) := by
  constructor
  · norm_num [runBacktest, runSignals, initState, stepSignal, tradePhase, applyBuy,
      applySell, snapshotOf, upsertLot, buyShares, positionSize, pyInt, lotsValue,
      sellFold, sigBuyA, min_def]
  · norm_num

/-- C1 (amended).  Starting cash 1,000,000, one BUY signal with strength 1.0 at
price 10.00: position value `min(1000000*0.1*1.0, 1000000) = 100000`, a new lot
of 10,000 shares, a logged BUY trade, and cash 900,000 after the trade. -/
theorem c1_buy_scenario :
    runBacktest 1000000 [sigBuyA] =
      ⟨900000, [⟨0, 10000, 10⟩],
       [⟨0, Action.buy, 10, 10000, none, Reason.buyEntry, 900000⟩],
       [⟨0, 1000000, 900000, 1⟩]⟩ ∧
    positionSize (initState 1000000) sigBuyA = 100000 := by
  constructor <;>
    norm_num [runBacktest, runSignals, initState, stepSignal, tradePhase, applyBuy,
      applySell, snapshotOf, upsertLot, buyShares, positionSize, pyInt, lotsValue,
      sellFold, sigBuyA, min_def]

/-- C2.  An ADD signal at price 10.00 with the full 1,000,000 cash available is
not executed: no trade is logged, no lot is opened, cash is unchanged —
contradicting the claim that ADD executes like a BUY. -/
theorem c2_add_counterexample :
    (runBacktest 1000000 [sigAddC]).trades = [] ∧
    (runBacktest 1000000 [sigAddC]).cash = 1000000 ∧
    (runBacktest 1000000 [sigAddC]).positions = [] := by
  refine ⟨?_, ?_, ?_⟩ <;>
    simp [runBacktest, runSignals, initState, stepSignal, tradePhase, applyBuy,
      applySell, snapshotOf, upsertLot, buyShares, positionSize, pyInt, lotsValue,
      sellFold, sigAddC, min_def]

/-- C2 (amended).  The ledger loop executes trades only on BUY and SELL: a
signal day whose action is ADD changes neither cash nor positions nor the trade
log; it only appends the day's portfolio snapshot. -/
theorem c2_add_not_executed (st : LedgerState) (sig : Signal)
    (h : sig.action = Action.add) :
    (stepSignal st sig).cash = st.cash ∧
    (stepSignal st sig).positions = st.positions ∧
    (stepSignal st sig).trades = st.trades ∧
    (stepSignal st sig).portfolio = st.portfolio ++ [snapshotOf st sig] := by
  have ht : tradePhase st sig = st := by
    rw [tradePhase, if_neg (by simp [h]), if_neg (by simp [h])]
  refine ⟨?_, ?_, ?_, ?_⟩
  · rw [stepSignal_cash, ht]
  · rw [stepSignal_positions, ht]
  · rw [stepSignal_trades, ht]
  · rw [stepSignal_portfolio, ht]

theorem c2_add_not_executed_witness :
    (stepSignal (initState 1000000) sigAddC).cash = (initState 1000000).cash ∧
    (stepSignal (initState 1000000) sigAddC).positions = (initState 1000000).positions ∧
    (stepSignal (initState 1000000) sigAddC).trades = (initState 1000000).trades ∧
    (stepSignal (initState 1000000) sigAddC).portfolio =
      (initState 1000000).portfolio ++ [snapshotOf (initState 1000000) sigAddC] :=
  c2_add_not_executed (initState 1000000) sigAddC rfl

/-- C6.  A signal day on which no trade executed still records a snapshot: the
ADD day below logs no trade yet appends one portfolio snapshot, contradicting
the claimed "if and only if that day produced at least one executed action". -/
theorem c6_snapshot_counterexample :
    (runBacktest 1000000 [sigAddD]).trades = [] ∧
    (runBacktest 1000000 [sigAddD]).portfolio.length = 1 := by
  constructor <;>
    simp [runBacktest, runSignals, initState, stepSignal, tradePhase, applyBuy,
      applySell, snapshotOf, upsertLot, buyShares, positionSize, pyInt, lotsValue,
      sellFold, sigAddD, min_def]

/-- C6 (amended).  Exactly one snapshot is recorded per processed signal day,
i.e. per non-HOLD row of the signal dataframe, whether or not any trade was
executed on that day. -/
theorem c6_snapshot_per_signal (cash0 : ℚ) (rows : List SignalRow) :
    (runBacktest cash0 (extractSignals rows)).portfolio.length =
      (rows.filter fun r => decide (r.signal ≠ Action.hold)).length := by
  rw [runBacktest, runSignals_portfolio_length, extractSignals, List.length_map]
  simp [initState]

/-! ## C7: the reported win rate -/

theorem action_sell_eq_buy : (Action.sell = Action.buy) = False := by simp

theorem action_buy_eq_sell : (Action.buy = Action.sell) = False := by simp

theorem action_add_eq_buy : (Action.add = Action.buy) = False := by simp

theorem action_add_eq_sell : (Action.add = Action.sell) = False := by simp

theorem filter_profit_filter_sell (l : List Trade) :
    (l.filter isSellTrade).filter (fun t => decide (0 < t.profit.getD 0))
      = l.filter isWinningSell := by
  induction l with
  | nil => rfl
  | cons t ts ih =>
      cases hs : isSellTrade t <;> cases hp : decide (0 < t.profit.getD 0) <;>
        simp [List.filter_cons, isWinningSell, hs, hp, ih]

/-- C7.  One BUY then one profitable SELL: one sell trade, one profitable sell
trade, yet the reported win rate is 100 — not the claimed bare ratio 1/1 = 1
(the code multiplies the ratio by 100). -/
theorem c7_win_rate_counterexample :
    performanceWinRate (runBacktest 1000000 [sigBuyA, sigSellB]) = some 100 ∧
    (runBacktest 1000000 [sigBuyA, sigSellB]).trades.countP isSellTrade = 1 ∧
    (runBacktest 1000000 [sigBuyA, sigSellB]).trades.countP isWinningSell = 1 ∧
    ¬ ((100 : ℚ) = 1 / 1) := by
  refine ⟨?_, ?_, ?_, by norm_num⟩ <;>
    norm_num [runBacktest, runSignals, initState, stepSignal, tradePhase, applyBuy,
      applySell, snapshotOf, upsertLot, buyShares, positionSize, pyInt, lotsValue,
      sellFold, sigBuyA, sigSellB, min_def, performanceWinRate, winRateOfTrades,
      isSellTrade, isWinningSell, List.countP_cons, List.filter_cons,
      action_sell_eq_buy, action_buy_eq_sell, action_add_eq_buy, action_add_eq_sell]

/-- C7 (amended).  For every completed simulation (at least one snapshot, so
`calculate_performance` does not return the empty dict), the reported win_rate
equals `100 * count(sell trades with profit > 0) / count(sell trades)` — a
percentage — and equals 0 when there are no sell trades. -/
theorem c7_win_rate_formula (st : LedgerState) (h : st.portfolio ≠ []) :
    performanceWinRate st =
      some (if st.trades.countP isSellTrade = 0 then 0
        else ((st.trades.countP isWinningSell : ℚ) / (st.trades.countP isSellTrade : ℚ)) * 100) := by
  have hpf : st.portfolio.isEmpty = false := by
    cases hp : st.portfolio with
    | nil => exact absurd hp h
    | cons a l => rfl
  rw [performanceWinRate, hpf]
  simp only [Bool.false_eq_true, if_false]
  congr 1
  rw [winRateOfTrades, filter_profit_filter_sell]
  simp only [List.countP_eq_length_filter]
  cases hs : st.trades.filter isSellTrade with
  | nil => simp
  | cons a l => simp

theorem c7_win_rate_formula_witness :
    performanceWinRate (runBacktest 1000000 [sigAddD]) =
      some (if (runBacktest 1000000 [sigAddD]).trades.countP isSellTrade = 0 then 0
        else (((runBacktest 1000000 [sigAddD]).trades.countP isWinningSell : ℚ)
          / ((runBacktest 1000000 [sigAddD]).trades.countP isSellTrade : ℚ)) * 100) :=
  c7_win_rate_formula (runBacktest 1000000 [sigAddD])
    (by simp [runBacktest, runSignals, initState, stepSignal, tradePhase, applyBuy,
      applySell, snapshotOf, upsertLot, buyShares, positionSize, pyInt, lotsValue,
      sellFold, sigAddD, min_def])

/-! ## C3: cash non-negativity -/

theorem pyInt_le_self {q : ℚ} (h : 0 ≤ q) : (pyInt q : ℚ) ≤ q := by
  rw [pyInt, if_pos h]
  exact Int.floor_le q

theorem pyInt_pos_nonneg {q : ℚ} (h : 0 < pyInt q) : 0 ≤ q := by
  by_contra hq
  push_neg at hq
  rw [pyInt, if_neg (not_le.mpr hq)] at h
  have h1 : 0 < q := Int.one_le_ceil_iff.mp h
  exact absurd h1 (not_lt.mpr hq.le)

/-- The state invariant maintained by the loop: non-negative cash, and every
open lot holds a positive share count. -/
def GoodState (st : LedgerState) : Prop :=
  0 ≤ st.cash ∧ ∀ l ∈ st.positions, 0 < l.shares

theorem mem_upsertLot {lots : List Lot} {lot x : Lot} (hx : x ∈ upsertLot lots lot) :
    x ∈ lots ∨ x = lot := by
  rw [upsertLot] at hx
  split at hx
  · rcases List.mem_map.mp hx with ⟨y, hy, he⟩
    by_cases hk : y.posDate = lot.posDate
    · right; rw [← he, if_pos hk]
    · left; rw [← he, if_neg hk]; exact hy
  · rcases List.mem_append.mp hx with h | h
    · exact Or.inl h
    · exact Or.inr (List.mem_singleton.mp h)

theorem buyShares_spend_le {st : LedgerState} {sig : Signal}
    (hp : 0 < sig.price) (h : 0 < buyShares st sig) :
    (buyShares st sig : ℚ) * sig.price ≤ positionSize st sig := by
  have h0 : 0 ≤ positionSize st sig / sig.price := pyInt_pos_nonneg h
  have h1 : (buyShares st sig : ℚ) ≤ positionSize st sig / sig.price :=
    pyInt_le_self h0
  exact (le_div_iff₀ hp).mp h1

theorem applyBuy_good {st : LedgerState} {sig : Signal}
    (hp : 0 < sig.price) (h : GoodState st) : GoodState (applyBuy st sig) := by
  rw [applyBuy]
  split
  case isTrue hs =>
    constructor
    · have h2 : (buyShares st sig : ℚ) * sig.price ≤ positionSize st sig :=
        buyShares_spend_le hp hs
      have h3 : positionSize st sig ≤ st.cash := min_le_right _ _
      show 0 ≤ st.cash - (buyShares st sig : ℚ) * sig.price
      linarith
    · intro l hl
      rcases mem_upsertLot hl with h4 | h4
      · exact h.2 l h4
      · rw [h4]; exact hs
  case isFalse => exact h

theorem sellFold_fst_le (date : ℕ) (price : ℚ) (reason : Reason) (hp : 0 < price) :
    ∀ (lots : List Lot) (acc : ℚ × List Trade), (∀ l ∈ lots, 0 < l.shares) →
      acc.1 ≤ (lots.foldl (sellFold date price reason) acc).1 := by
  intro lots
  induction lots with
  | nil => intro acc _; exact le_refl _
  | cons l ls ih =>
      intro acc hl
      rw [List.foldl_cons]
      refine le_trans ?_ (ih (sellFold date price reason acc l)
        fun x hx => hl x (List.mem_cons_of_mem _ hx))
      rw [sellFold]
      split
      · have hs : (0 : ℚ) < (l.shares : ℚ) := by
          exact_mod_cast hl l (List.mem_cons_self _ _)
        have : 0 ≤ (l.shares : ℚ) * price := le_of_lt (mul_pos hs hp)
        show acc.1 ≤ acc.1 + (l.shares : ℚ) * price
        linarith
      · exact le_refl _

theorem applySell_good {st : LedgerState} {d : ℕ} {price : ℚ} {r : Reason}
    (hp : 0 < price) (h : GoodState st) : GoodState (applySell st d price r) := by
  constructor
  · show 0 ≤ (st.positions.foldl (sellFold d price r) (st.cash, st.trades)).1
    exact le_trans h.1 (sellFold_fst_le d price r hp st.positions (st.cash, st.trades) h.2)
  · intro l hl
    exact h.2 l (List.mem_of_mem_filter hl)

theorem stepSignal_good {st : LedgerState} {sig : Signal}
    (hp : 0 < sig.price) (h : GoodState st) : GoodState (stepSignal st sig) := by
  have hstep : GoodState (tradePhase st sig) := by
    rw [tradePhase]
    split
    · exact applyBuy_good hp h
    · split
      · exact applySell_good hp h
      · exact h
  exact ⟨le_of_le_of_eq hstep.1 (stepSignal_cash st sig).symm,
    fun l hl => hstep.2 l ((stepSignal_positions st sig) ▸ hl)⟩

theorem runSignals_good (sigs : List Signal) :
    ∀ st : LedgerState, (∀ s ∈ sigs, 0 < s.price) → GoodState st →
      GoodState (runSignals st sigs) := by
  induction sigs with
  | nil => intro st _ h; exact h
  | cons s ss ih =>
      intro st hp h
      rw [runSignals_cons]
      exact ih (stepSignal st s) (fun x hx => hp x (List.mem_cons_of_mem _ hx))
        (stepSignal_good (hp s (List.mem_cons_self _ _)) h)

/-- C3.  From any non-negative starting cash, after processing any number `n`
of the signals (in order, all at positive prices as Bar closes are), the
ledger's cash balance is non-negative: a BUY never spends more cash than held. -/
theorem c3_cash_nonneg (cash0 : ℚ) (sigs : List Signal) (h0 : 0 ≤ cash0)
    (hp : ∀ s ∈ sigs, 0 < s.price) (n : ℕ) :
    0 ≤ (runBacktest cash0 (sigs.take n)).cash := by
  have hg : GoodState (runBacktest cash0 (sigs.take n)) := by
    apply runSignals_good
    · exact fun s hs => hp s (List.take_subset n sigs hs)
    · exact ⟨h0, by intro l hl; simp [initState] at hl⟩
  exact hg.1

theorem c3_cash_nonneg_witness :
    0 ≤ (100 : ℚ) ∧ (∀ s ∈ [sigBuyA, sigSellB], 0 < s.price) ∧
    0 ≤ (runBacktest 100 ([sigBuyA, sigSellB].take 2)).cash :=
  ⟨by norm_num,
   by intro s hs; rcases List.mem_cons.mp hs with h | h
      · rw [h, sigBuyA]; norm_num
      · rw [List.mem_singleton.mp h, sigSellB]; norm_num,
   c3_cash_nonneg 100 [sigBuyA, sigSellB] (by norm_num)
     (by intro s hs; rcases List.mem_cons.mp hs with h | h
         · rw [h, sigBuyA]; norm_num
         · rw [List.mem_singleton.mp h, sigSellB]; norm_num) 2⟩

/-! ## C4: the snapshot value identity -/

theorem tradePhase_positions_sub (st : LedgerState) (sig : Signal) :
    ∀ l ∈ (tradePhase st sig).positions, l ∈ st.positions ∨ l.posDate = sig.date := by
  intro l hl
  rw [tradePhase] at hl
  split at hl
  · rw [applyBuy] at hl
    split at hl
    · rcases mem_upsertLot hl with h1 | h1
      · exact Or.inl h1
      · right; rw [h1]
    · exact Or.inl hl
  · split at hl
    · exact Or.inl (List.mem_of_mem_filter hl)
    · exact Or.inl hl

theorem runSignals_positions_le (d : ℕ) (sigs : List Signal) :
    ∀ st : LedgerState, (∀ l ∈ st.positions, l.posDate ≤ d) →
      (∀ s ∈ sigs, s.date ≤ d) →
      ∀ l ∈ (runSignals st sigs).positions, l.posDate ≤ d := by
  induction sigs with
  | nil => intro st h _ l hl; exact h l hl
  | cons s ss ih =>
      intro st h hs
      rw [runSignals_cons]
      apply ih
      · intro l hl
        rw [stepSignal_positions] at hl
        rcases tradePhase_positions_sub st s l hl with h1 | h1
        · exact h l h1
        · rw [h1]; exact hs s (List.mem_cons_self _ _)
      · exact fun x hx => hs x (List.mem_cons_of_mem _ hx)

theorem runSignals_append_single (st : LedgerState) (A : List Signal) (s : Signal) :
    runSignals st (A ++ [s]) = stepSignal (runSignals st A) s := by
  rw [runSignals, runSignals, List.foldl_append, List.foldl_cons, List.foldl_nil]

/-- C4.  With signals processed in date order, the snapshot recorded on day `n`
carries exactly `value = cash + Σ (shares * that day's price)` over **all** open
lots (the identity is exact over `ℚ`, hence within any floating-point
tolerance), together with that cash balance and the open-lot count. -/
theorem c4_snapshot_value (cash0 : ℚ) (sigs : List Signal)
    (hsort : sigs.Pairwise fun a b => a.date ≤ b.date)
    (n : ℕ) (hn : n < sigs.length) :
    (runBacktest cash0 (sigs.take (n+1))).portfolio.getLast? =
      some ⟨(sigs.getD n defaultSignal).date,
        (runBacktest cash0 (sigs.take (n+1))).cash
          + lotsValue (runBacktest cash0 (sigs.take (n+1))).positions
              (sigs.getD n defaultSignal).price,
        (runBacktest cash0 (sigs.take (n+1))).cash,
        (runBacktest cash0 (sigs.take (n+1))).positions.length⟩ := by
  have hget : sigs[n]? = some (sigs.getD n defaultSignal) := by
    rw [List.getD_eq_getElem sigs defaultSignal hn]
    exact List.getElem?_eq_getElem hn
  have htake : sigs.take (n+1) = sigs.take n ++ [sigs.getD n defaultSignal] := by
    rw [List.take_succ, hget]
    rfl
  have hrun : runBacktest cash0 (sigs.take (n+1))
      = stepSignal (runBacktest cash0 (sigs.take n)) (sigs.getD n defaultSignal) := by
    rw [htake, runBacktest, runBacktest, runSignals_append_single]
  have hpair : (sigs.take n ++ [sigs.getD n defaultSignal]).Pairwise
      (fun a b => a.date ≤ b.date) := by
    rw [← htake]
    exact hsort.sublist (List.take_sublist _ _)
  have hdates : ∀ x ∈ sigs.take n, x.date ≤ (sigs.getD n defaultSignal).date := by
    intro x hx
    exact (List.pairwise_append.mp hpair).2.2 x hx _ (List.mem_singleton.mpr rfl)
  have hlots : ∀ l ∈ (runBacktest cash0 (sigs.take n)).positions,
      l.posDate ≤ (sigs.getD n defaultSignal).date := by
    apply runSignals_positions_le _ _ (initState cash0)
    · intro l hl; simp [initState] at hl
    · exact hdates
  have hlots1 : ∀ l ∈ (tradePhase (runBacktest cash0 (sigs.take n))
      (sigs.getD n defaultSignal)).positions,
      l.posDate ≤ (sigs.getD n defaultSignal).date := by
    intro l hl
    rcases tradePhase_positions_sub _ _ l hl with h1 | h1
    · exact hlots l h1
    · exact le_of_eq h1
  have hfilter : ((tradePhase (runBacktest cash0 (sigs.take n))
        (sigs.getD n defaultSignal)).positions.filter
      fun l => decide (l.posDate ≤ (sigs.getD n defaultSignal).date))
      = (tradePhase (runBacktest cash0 (sigs.take n)) (sigs.getD n defaultSignal)).positions := by
    rw [List.filter_eq_self]
    intro a ha
    exact decide_eq_true (hlots1 a ha)
  rw [hrun, stepSignal_portfolio, List.getLast?_concat, stepSignal_cash,
    stepSignal_positions, snapshotOf, hfilter]

theorem c4_snapshot_value_witness :
    (runBacktest 1000000 ([sigBuyA].take (0+1))).portfolio.getLast? =
      some ⟨([sigBuyA].getD 0 defaultSignal).date,
        (runBacktest 1000000 ([sigBuyA].take (0+1))).cash
          + lotsValue (runBacktest 1000000 ([sigBuyA].take (0+1))).positions
              ([sigBuyA].getD 0 defaultSignal).price,
        (runBacktest 1000000 ([sigBuyA].take (0+1))).cash,
        (runBacktest 1000000 ([sigBuyA].take (0+1))).positions.length⟩ :=
  c4_snapshot_value 1000000 [sigBuyA] (by simp) 0 (by norm_num)

/-! ## C5: one action per day, fixed evaluation order, HOLD before the lookback -/

/-- C5.  Every day carries exactly one of BUY/SELL/ADD/HOLD; days before
`max(slow_ma_window, volatility_lookback)` are HOLD; at or after the lookback,
the three branch guards are consulted in the fixed order BUY, SELL, ADD and the
first true one gives the emitted action, HOLD when none holds. -/
theorem c5_signal_priority (p : StratParams) (bars : List Bar) (i : ℕ) :
    (signalAt p bars i = Action.buy ∨ signalAt p bars i = Action.sell ∨
      signalAt p bars i = Action.add ∨ signalAt p bars i = Action.hold) ∧
    (i < minLookback p → signalAt p bars i = Action.hold) ∧
    (minLookback p ≤ i → buyCondition p bars i = true →
      signalAt p bars i = Action.buy) ∧
    (minLookback p ≤ i → buyCondition p bars i = false → sellCondition p bars i = true →
      signalAt p bars i = Action.sell) ∧
    (minLookback p ≤ i → buyCondition p bars i = false → sellCondition p bars i = false →
      addCondition p bars i = true → signalAt p bars i = Action.add) ∧
    (buyCondition p bars i = false → sellCondition p bars i = false →
      addCondition p bars i = false → signalAt p bars i = Action.hold) := by
  refine ⟨?_, ?_, ?_, ?_, ?_, ?_⟩
  · rw [signalAt]
    split_ifs <;> simp
  · intro h
    rw [signalAt, if_pos h]
  · intro h1 h2
    rw [signalAt, if_neg (not_lt.mpr h1), if_pos h2]
  · intro h1 h2 h3
    rw [signalAt, if_neg (not_lt.mpr h1), if_neg (by simp [h2]), if_pos h3]
  · intro h1 h2 h3 h4
    rw [signalAt, if_neg (not_lt.mpr h1), if_neg (by simp [h2]), if_neg (by simp [h3]),
      if_pos h4]
  · intro h1 h2 h3
    simp [signalAt, h1, h2, h3]

theorem c5_signal_priority_witness : signalAt defaultParams [] 0 = Action.hold :=
  (c5_signal_priority defaultParams [] 0).2.1 (by decide)

/-! ## C10: the risk-reward ratio is constant -/

/-- C10.  Whenever the stop multiple is non-zero (it is 3.0), on every row with
non-zero ATR the risk-reward ratio collapses to exactly `take_profit_multiple`
(2.0), independent of price and ATR; since 2.0 > 1.5, the BUY gate
`risk_reward_ratio > 1.5` passes exactly on the rows with non-zero ATR and
rejects only rows whose ATR is zero (there the ratio is the undefined 0/0,
embedded as 0, matching NaN gating to false). -/
theorem c10_risk_reward_constant (p : StratParams) (bars : List Bar) (i : ℕ)
    (hm : p.atrMultipleStop ≠ 0) :
    (0 < atr p bars i → riskRewardRatio p bars i = p.takeProfitMultiple) ∧
    ((3 : ℚ)/2 < p.takeProfitMultiple →
      (riskRewardOk p bars i = true ↔ atr p bars i ≠ 0)) := by
  have key : atr p bars i ≠ 0 → riskRewardRatio p bars i = p.takeProfitMultiple := by
    intro ha
    rw [riskRewardRatio, takeProfitPrice, dynamicStopLoss]
    have h1 : closeAt bars i + p.takeProfitMultiple * p.atrMultipleStop * atr p bars i
        - closeAt bars i
        = p.takeProfitMultiple * (p.atrMultipleStop * atr p bars i) := by ring
    have h2 : closeAt bars i - (closeAt bars i - p.atrMultipleStop * atr p bars i)
        = p.atrMultipleStop * atr p bars i := by ring
    rw [h1, h2, mul_div_assoc, div_self (mul_ne_zero hm ha), mul_one]
  have hzero : atr p bars i = 0 → riskRewardRatio p bars i = 0 := by
    intro ha
    rw [riskRewardRatio, takeProfitPrice, dynamicStopLoss, ha]
    simp
  refine ⟨fun h => key (ne_of_gt h), fun ht => ?_⟩
  constructor
  · intro hok
    intro ha
    rw [riskRewardOk, hzero ha] at hok
    norm_num at hok
  · intro ha
    rw [riskRewardOk, key ha]
    exact decide_eq_true ht

theorem c10_risk_reward_constant_witness :
    riskRewardRatio defaultParams [⟨1, 3, 1, 2⟩] 0 = defaultParams.takeProfitMultiple ∧
    (riskRewardOk defaultParams [⟨1, 3, 1, 2⟩] 0 = true ↔
      atr defaultParams [⟨1, 3, 1, 2⟩] 0 ≠ 0) :=
  ⟨(c10_risk_reward_constant defaultParams [⟨1, 3, 1, 2⟩] 0
      (by norm_num [defaultParams])).1
    (by norm_num [atr, trueRange, highAt, lowAt, closeAt, getBar, defaultParams]),
   (c10_risk_reward_constant defaultParams [⟨1, 3, 1, 2⟩] 0
      (by norm_num [defaultParams])).2
    (by norm_num [defaultParams])⟩

/-! ## C9: non-negative ATR; stop-loss / take-profit SELL tags never fire -/

theorem getBar_low_le_high {bars : List Bar} (h : ∀ b ∈ bars, b.low ≤ b.high)
    (i : ℕ) : (getBar bars i).low ≤ (getBar bars i).high := by
  rw [getBar]
  rcases Nat.lt_or_ge i bars.length with hi | hi
  · rw [List.getD_eq_getElem bars ⟨0, 0, 0, 0⟩ hi]
    exact h _ (List.getElem_mem hi)
  · rw [List.getD_eq_default bars ⟨0, 0, 0, 0⟩ hi]

theorem trueRange_nonneg {bars : List Bar} (h : ∀ b ∈ bars, b.low ≤ b.high)
    (i : ℕ) : 0 ≤ trueRange bars i := by
  cases i with
  | zero =>
      rw [trueRange, highAt, lowAt]
      exact sub_nonneg.mpr (getBar_low_le_high h 0)
  | succ j =>
      rw [trueRange]
      refine le_max_of_le_left ?_
      rw [highAt, lowAt]
      exact sub_nonneg.mpr (getBar_low_le_high h (j + 1))

theorem atr_nonneg (p : StratParams) {bars : List Bar} (hw : 1 ≤ p.atrW)
    (h : ∀ b ∈ bars, b.low ≤ b.high) (i : ℕ) : 0 ≤ atr p bars i := by
  induction i with
  | zero => rw [atr]; exact trueRange_nonneg h 0
  | succ j ih =>
      rw [atr]
      have hα0 : 0 ≤ ewmAlpha p.atrW := by
        rw [ewmAlpha]
        positivity
      have hα1 : ewmAlpha p.atrW ≤ 1 := by
        rw [ewmAlpha, div_le_one (by positivity)]
        have : (1 : ℚ) ≤ (p.atrW : ℚ) := by exact_mod_cast hw
        linarith
      exact add_nonneg (mul_nonneg (by linarith) ih)
        (mul_nonneg hα0 (trueRange_nonneg h (j + 1)))

/-- C9.  When every bar has `high ≥ low` (and the window/multiple parameters
are as configured: positive window, non-negative stop and take-profit
multiples), the ATR is non-negative on every row, so `close < dynamic_stop_loss`
and `close > take_profit_price` — both computed from the *same day's* close —
are false everywhere: a SELL is emitted only on a Donchian-low break or a trend
reversal, and its reason tag is never the stop-loss or take-profit tag. -/
theorem c9_sell_reasons (p : StratParams) (bars : List Bar)
    (hw : 1 ≤ p.atrW) (hstop : 0 ≤ p.atrMultipleStop)
    (htp : 0 ≤ p.takeProfitMultiple)
    (hhl : ∀ b ∈ bars, b.low ≤ b.high) (i : ℕ) :
    0 ≤ atr p bars i ∧
    belowStop p bars i = false ∧
    aboveTakeProfit p bars i = false ∧
    (signalAt p bars i = Action.sell →
      (breakLow p bars i = true ∨ trendReversal p bars i = true)) ∧
    (signalAt p bars i = Action.sell →
      reasonAt p bars i = Reason.supportBreak ∨
      reasonAt p bars i = Reason.trendReversalTag) := by
  have ha : 0 ≤ atr p bars i := atr_nonneg p hw hhl i
  have hbs : belowStop p bars i = false := by
    rw [belowStop, dynamicStopLoss]
    simp only [decide_eq_false_iff_not, not_lt]
    have : 0 ≤ p.atrMultipleStop * atr p bars i := mul_nonneg hstop ha
    linarith
  have htpf : aboveTakeProfit p bars i = false := by
    rw [aboveTakeProfit, takeProfitPrice]
    simp only [decide_eq_false_iff_not, not_lt]
    have : 0 ≤ p.takeProfitMultiple * p.atrMultipleStop * atr p bars i :=
      mul_nonneg (mul_nonneg htp hstop) ha
    linarith
  refine ⟨ha, hbs, htpf, ?_, ?_⟩
  · intro h
    have h1 : ¬ i < minLookback p := by
      intro hl
      rw [signalAt, if_pos hl] at h
      exact Action.noConfusion h
    have hbuy : buyCondition p bars i = false := by
      cases hb : buyCondition p bars i
      · rfl
      · rw [signalAt, if_neg h1, if_pos hb] at h
        exact Action.noConfusion h
    have hsc : sellCondition p bars i = true := by
      cases hs : sellCondition p bars i
      · rw [signalAt, if_neg h1, if_neg (by simp [hbuy]), if_neg (by simp [hs])] at h
        cases hadd : addCondition p bars i <;> rw [hadd] at h <;> simp at h
      · rfl
    rw [sellCondition, hbs, htpf] at hsc
    simp only [Bool.false_or, Bool.or_false] at hsc
    exact Bool.or_eq_true_iff.mp hsc
  · intro h
    have h1 : ¬ i < minLookback p := by
      intro hl
      rw [signalAt, if_pos hl] at h
      exact Action.noConfusion h
    have hbuy : buyCondition p bars i = false := by
      cases hb : buyCondition p bars i
      · rfl
      · rw [signalAt, if_neg h1, if_pos hb] at h
        exact Action.noConfusion h
    have hsc : sellCondition p bars i = true := by
      cases hs : sellCondition p bars i
      · rw [signalAt, if_neg h1, if_neg (by simp [hbuy]), if_neg (by simp [hs])] at h
        cases hadd : addCondition p bars i <;> rw [hadd] at h <;> simp at h
      · rfl
    rw [reasonAt, if_neg h1, if_neg (by simp [hbuy]), if_pos hsc, if_neg (by simp [hbs])]
    cases hbl : breakLow p bars i
    · simp [htpf]
    · simp

theorem c9_sell_reasons_witness :
    0 ≤ atr defaultParams [⟨1, 3, 1, 2⟩] 0 ∧
    belowStop defaultParams [⟨1, 3, 1, 2⟩] 0 = false ∧
    aboveTakeProfit defaultParams [⟨1, 3, 1, 2⟩] 0 = false ∧
    (signalAt defaultParams [⟨1, 3, 1, 2⟩] 0 = Action.sell →
      (breakLow defaultParams [⟨1, 3, 1, 2⟩] 0 = true ∨
        trendReversal defaultParams [⟨1, 3, 1, 2⟩] 0 = true)) ∧
    (signalAt defaultParams [⟨1, 3, 1, 2⟩] 0 = Action.sell →
      reasonAt defaultParams [⟨1, 3, 1, 2⟩] 0 = Reason.supportBreak ∨
      reasonAt defaultParams [⟨1, 3, 1, 2⟩] 0 = Reason.trendReversalTag) :=
  c9_sell_reasons defaultParams [⟨1, 3, 1, 2⟩] (by norm_num [defaultParams])
    (by norm_num [defaultParams]) (by norm_num [defaultParams])
    (by intro b hb
        rw [List.mem_singleton.mp hb]
        norm_num) 0

/-! ## C8: no lookahead — truncating future bars leaves past indicators intact -/

theorem getBar_take {bars : List Bar} {t i : ℕ} (h : i ≤ t) :
    getBar (bars.take (t + 1)) i = getBar bars i := by
  rw [getBar, getBar, List.getD_eq_getElem?_getD, List.getD_eq_getElem?_getD,
    List.getElem?_take_of_lt (by omega : i < t + 1)]

theorem closeAt_take {bars : List Bar} {t i : ℕ} (h : i ≤ t) :
    closeAt (bars.take (t + 1)) i = closeAt bars i := by
  rw [closeAt, closeAt, getBar_take h]

theorem highAt_take {bars : List Bar} {t i : ℕ} (h : i ≤ t) :
    highAt (bars.take (t + 1)) i = highAt bars i := by
  rw [highAt, highAt, getBar_take h]

theorem lowAt_take {bars : List Bar} {t i : ℕ} (h : i ≤ t) :
    lowAt (bars.take (t + 1)) i = lowAt bars i := by
  rw [lowAt, lowAt, getBar_take h]

theorem trueRange_take {bars : List Bar} {t i : ℕ} (h : i ≤ t) :
    trueRange (bars.take (t + 1)) i = trueRange bars i := by
  cases i with
  | zero => rw [trueRange, trueRange, highAt_take h, lowAt_take h]
  | succ j =>
      rw [trueRange, trueRange, highAt_take h, lowAt_take h,
        closeAt_take (by omega : j ≤ t)]

theorem atr_take (p : StratParams) {bars : List Bar} {t : ℕ} :
    ∀ i, i ≤ t → atr p (bars.take (t + 1)) i = atr p bars i := by
  intro i
  induction i with
  | zero => intro h; rw [atr, atr, trueRange_take h]
  | succ j ih =>
      intro h
      rw [atr, atr, trueRange_take h, ih (by omega)]

theorem windowVals_congr {f g : ℕ → ℚ} {w i : ℕ} (hw : w ≤ i + 1)
    (h : ∀ j, j ≤ i → f j = g j) : windowVals f w i = windowVals g w i := by
  rw [windowVals, windowVals]
  apply List.map_congr_left
  intro k hk
  have hk2 : k < w := List.mem_range.mp hk
  exact h _ (by omega)

theorem rollingMean_congr {f g : ℕ → ℚ} {w i : ℕ}
    (h : ∀ j, j ≤ i → f j = g j) : rollingMean f w i = rollingMean g w i := by
  rw [rollingMean, rollingMean]
  split
  case isTrue hc => rw [windowVals_congr hc.2 h]
  case isFalse => rfl

theorem rollingMax_congr {f g : ℕ → ℚ} {w i : ℕ}
    (h : ∀ j, j ≤ i → f j = g j) : rollingMax f w i = rollingMax g w i := by
  rw [rollingMax, rollingMax]
  split
  case isTrue hc =>
      rw [windowVals_congr hc.2 h, h _ (by omega : i + 1 - w ≤ i)]
  case isFalse => rfl

theorem rollingMin_congr {f g : ℕ → ℚ} {w i : ℕ}
    (h : ∀ j, j ≤ i → f j = g j) : rollingMin f w i = rollingMin g w i := by
  rw [rollingMin, rollingMin]
  split
  case isTrue hc =>
      rw [windowVals_congr hc.2 h, h _ (by omega : i + 1 - w ≤ i)]
  case isFalse => rfl

theorem rollingMedian_congr {f g : ℕ → ℚ} {w i : ℕ}
    (h : ∀ j, j ≤ i → f j = g j) : rollingMedian f w i = rollingMedian g w i := by
  rw [rollingMedian, rollingMedian]
  split
  case isTrue hc => rw [windowVals_congr hc.2 h]
  case isFalse => rfl

theorem atrPct_take (p : StratParams) {bars : List Bar} {t i : ℕ} (h : i ≤ t) :
    atrPct p (bars.take (t + 1)) i = atrPct p bars i := by
  rw [atrPct, atrPct, atr_take p i h, closeAt_take h]

theorem atrPctMedian_take (p : StratParams) {bars : List Bar} {t i : ℕ} (h : i ≤ t) :
    atrPctMedian p (bars.take (t + 1)) i = atrPctMedian p bars i := by
  rw [atrPctMedian, atrPctMedian]
  exact rollingMedian_congr fun j hj => atrPct_take p (le_trans hj h)

theorem atrFilterRatio_take (p : StratParams) {bars : List Bar} {t i : ℕ} (h : i ≤ t) :
    atrFilterRatio p (bars.take (t + 1)) i = atrFilterRatio p bars i := by
  rw [atrFilterRatio, atrFilterRatio, atrPctMedian_take p h, atrPct_take p h]

theorem fastMa_take (p : StratParams) {bars : List Bar} {t i : ℕ} (h : i ≤ t) :
    fastMa p (bars.take (t + 1)) i = fastMa p bars i := by
  rw [fastMa, fastMa]
  exact rollingMean_congr fun j hj => closeAt_take (le_trans hj h)

theorem slowMa_take (p : StratParams) {bars : List Bar} {t i : ℕ} (h : i ≤ t) :
    slowMa p (bars.take (t + 1)) i = slowMa p bars i := by
  rw [slowMa, slowMa]
  exact rollingMean_congr fun j hj => closeAt_take (le_trans hj h)

theorem donchianHigh_take (p : StratParams) {bars : List Bar} {t i : ℕ} (h : i ≤ t) :
    donchianHigh p (bars.take (t + 1)) i = donchianHigh p bars i := by
  rw [donchianHigh, donchianHigh]
  exact rollingMax_congr fun j hj => highAt_take (le_trans hj h)

theorem donchianLow_take (p : StratParams) {bars : List Bar} {t i : ℕ} (h : i ≤ t) :
    donchianLow p (bars.take (t + 1)) i = donchianLow p bars i := by
  rw [donchianLow, donchianLow]
  exact rollingMin_congr fun j hj => lowAt_take (le_trans hj h)

theorem trendStrength_take (p : StratParams) {bars : List Bar} {t i : ℕ} (h : i ≤ t) :
    trendStrength p (bars.take (t + 1)) i = trendStrength p bars i := by
  rw [trendStrength, trendStrength, fastMa_take p h, slowMa_take p h]

theorem volRegime_take (p : StratParams) {bars : List Bar} {t i : ℕ} (h : i ≤ t) :
    volRegime p (bars.take (t + 1)) i = volRegime p bars i := by
  rw [volRegime, volRegime, atrFilterRatio_take p h]

/-- All the indicator series of the pipeline agree at day `i` between the full
bar list and its truncation right after day `t`. -/
def IndicatorsAgree (p : StratParams) (bars : List Bar) (t i : ℕ) : Prop :=
  atr p (bars.take (t + 1)) i = atr p bars i ∧
  atrPct p (bars.take (t + 1)) i = atrPct p bars i ∧
  atrPctMedian p (bars.take (t + 1)) i = atrPctMedian p bars i ∧
  atrFilterRatio p (bars.take (t + 1)) i = atrFilterRatio p bars i ∧
  fastMa p (bars.take (t + 1)) i = fastMa p bars i ∧
  slowMa p (bars.take (t + 1)) i = slowMa p bars i ∧
  donchianHigh p (bars.take (t + 1)) i = donchianHigh p bars i ∧
  donchianLow p (bars.take (t + 1)) i = donchianLow p bars i ∧
  trendStrength p (bars.take (t + 1)) i = trendStrength p bars i ∧
  volRegime p (bars.take (t + 1)) i = volRegime p bars i

/-- C8.  No lookahead: removing every bar after day `t` leaves every indicator
value (ATR, ATR%, its rolling median, the filter ratio, fast/slow MAs, Donchian
high/low, trend strength, volatility regime) unchanged at every day `i ≤ t`. -/
theorem c8_no_lookahead (p : StratParams) (bars : List Bar) (t i : ℕ) (h : i ≤ t) :
    IndicatorsAgree p bars t i :=
  ⟨atr_take p i h, atrPct_take p h, atrPctMedian_take p h, atrFilterRatio_take p h,
   fastMa_take p h, slowMa_take p h, donchianHigh_take p h, donchianLow_take p h,
   trendStrength_take p h, volRegime_take p h⟩

theorem c8_no_lookahead_witness :
    IndicatorsAgree defaultParams [⟨1, 2, 1, 2⟩, ⟨2, 3, 2, 3⟩, ⟨3, 4, 3, 4⟩] 1 0 :=
  c8_no_lookahead defaultParams [⟨1, 2, 1, 2⟩, ⟨2, 3, 2, 3⟩, ⟨3, 4, 3, 4⟩] 1 0
    (by decide)

end GetStocksData
